import Mathlib

set_option maxHeartbeats 1000000

/-!
Shallow embedding of the request/response bridge in
`src/electron/python-bridge.js` and of the sync scheduler / command router in
`src/electron/main.js` of the biometric-sync repository, together with
theorems settling the frozen claims about them.

The bridge is embedded as a state machine: `BridgeState` carries the fields of
the `PythonBridge` object (`pythonProcess`, `requestId`, `pendingRequests`,
`isInitialized`), and each JavaScript handler (`call`, `handleMessage`, the
60-second request timer, the `close`/`error` listeners, `terminate`) becomes a
function from state to state paired with the observable effects it produces
(messages written to the worker, promise settlements, thrown errors, process
kills).  Real time is abstracted: the firing of a request's 60-second timer is
an explicit event, and the duration is recorded on the pending entry exactly
as the source fixes it at creation.
-/

/-- JSON-like structured values carried in `params` and `result` fields. -/
inductive JValue where
  | null
  | bool (b : Bool)
  | num (n : Int)
  | str (s : String)
  | arr (elems : List JValue)
  | obj (fields : List (String × JValue))

/-- Body of an inbound worker message: either `{result: v}` or
`{error: {message?}}` (the `message` field may be absent). -/
inductive InMsgBody where
  | result (v : JValue)
  | error (msg : Option String)

/-- Outcome delivered to a pending caller when its promise settles. -/
inductive Outcome where
  | result (v : JValue)
  | remoteError (msg : String)
  | requestTimeout (method : String)
  | processClosed
  | processError (msg : String)

/-- The JavaScript error text attached to each rejecting outcome
(`none` for a resolution). -/
def Outcome.errorText : Outcome → Option String
  | .result _ => none
  | .remoteError m => some m
  | .requestTimeout m => some ("Request timeout: " ++ m)
  | .processClosed => some "Python process closed unexpectedly"
  | .processError m => some ("Python process error: " ++ m)

/-- mirror of `message.error.message || 'Unknown error'` in `handleMessage`
(a missing or empty message string is falsy in JavaScript). -/
def errMsg : Option String → String
  | none => "Unknown error"
  | some m => if m == "" then "Unknown error" else m

/-- the settlement `handleMessage` performs for a given inbound body:
`resolve(message.result)` or `reject(new Error(message.error.message || ...))`. -/
def outcomeOf : InMsgBody → Outcome
  | .result v => .result v
  | .error m => .remoteError (errMsg m)

/-- one entry of `this.pendingRequests`: the stored continuation is abstracted
away (a settlement effect names the entry by id instead) and the timeout
duration fixed at creation is kept. -/
structure PendingEntry where
  method : String
  timeoutMs : Nat
deriving DecidableEq

/-- the fields of the `PythonBridge` object.  `pythonProcess` records whether
`this.pythonProcess` is non-null. -/
structure BridgeState where
  pythonProcess : Bool
  requestId : Nat
  pending : List (Nat × PendingEntry)
  isInitialized : Bool
deriving DecidableEq

/-- observable effects of one handler execution. -/
inductive Effect where
  | sent (method : String) (params : JValue) (id : Nat)
  | settled (id : Nat) (o : Outcome)
  | callThrew (msg : String)
  | killed

/-- `Map.prototype.has` on the pending table. -/
def mapHas (p : List (Nat × PendingEntry)) (id : Nat) : Bool :=
  p.any (fun q => q.1 == id)

/-- `Map.prototype.delete` on the pending table. -/
def mapDelete (p : List (Nat × PendingEntry)) (id : Nat) : List (Nat × PendingEntry) :=
  p.filter (fun q => q.1 != id)

/-- `Map.prototype.set` on the pending table (overwrite, or append in
insertion order). -/
def mapSet (p : List (Nat × PendingEntry)) (id : Nat) (v : PendingEntry) :
    List (Nat × PendingEntry) :=
  if mapHas p id then p.map (fun q => if q.1 == id then (id, v) else q)
  else p ++ [(id, v)]

namespace PythonBridge

/-- the constructor state of `PythonBridge`. -/
def new : BridgeState :=
  { pythonProcess := false, requestId := 0, pending := [], isInitialized := false }

/-- the bridge state immediately after `new PythonShell('main.py', options)`
succeeds inside `initialize()` (process attached, nothing pending, handshake
not yet resolved). -/
def spawnedState : BridgeState :=
  { pythonProcess := true, requestId := 0, pending := [], isInitialized := false }

/-- `handleMessage(message)`: when `message.id` is truthy and has a pending
entry, delete the entry and settle it from the message body; any other
message is silently ignored. -/
def handleMessage (s : BridgeState) (id : Nat) (body : InMsgBody) :
    BridgeState × List Effect :=
  if id != 0 && mapHas s.pending id then
    ({ s with pending := mapDelete s.pending id }, [.settled id (outcomeOf body)])
  else (s, [])

/-- `call(method, params)`: throw unless a process is attached; otherwise
allocate `++this.requestId`, record the pending entry with its 60000 ms
timeout, and send `{method, params, id}` to the worker. -/
def call (s : BridgeState) (method : String) (params : JValue) :
    BridgeState × List Effect :=
  if !s.pythonProcess then (s, [.callThrew "Python process not initialized"])
  else
    ({ s with requestId := s.requestId + 1,
              pending := mapSet s.pending (s.requestId + 1) ⟨method, 60000⟩ },
     [.sent method params (s.requestId + 1)])

/-- the request's 60-second timer firing: if the entry is still pending,
delete it and reject with the method-naming timeout error; a cleared or
already-settled entry makes the firing a no-op. -/
def fireTimeout (s : BridgeState) (id : Nat) : BridgeState × List Effect :=
  match s.pending.find? (fun q => q.1 == id) with
  | some q => ({ s with pending := mapDelete s.pending id },
               [.settled id (.requestTimeout q.2.method)])
  | none => (s, [])

/-- the `close` listener: mark uninitialized, reject every pending entry with
the termination error, and clear the table.  Note that `this.pythonProcess`
is left as it was. -/
def onClose (s : BridgeState) : BridgeState × List Effect :=
  ({ s with isInitialized := false, pending := [] },
   s.pending.map (fun q => Effect.settled q.1 .processClosed))

/-- the `error` listener: reject every pending entry and clear the table. -/
def onError (s : BridgeState) (m : String) : BridgeState × List Effect :=
  ({ s with pending := [] },
   s.pending.map (fun q => Effect.settled q.1 (.processError m)))

/-- `terminate()`: kill the process if attached, null the reference, drop the
initialized flag, and clear the pending table.  The cleared entries are not
rejected. -/
def terminate (s : BridgeState) : BridgeState × List Effect :=
  ({ pythonProcess := false, requestId := s.requestId, pending := [],
     isInitialized := false },
   if s.pythonProcess then [.killed] else [])

/-- the events a bridge instance reacts to. -/
inductive Event where
  | call (method : String) (params : JValue)
  | message (id : Nat) (body : InMsgBody)
  | timeoutFire (id : Nat)
  | procClose
  | procError (m : String)
  | terminate

/-- dispatch one event to the corresponding handler. -/
def step (s : BridgeState) : Event → BridgeState × List Effect
  | .call m p => call s m p
  | .message id b => handleMessage s id b
  | .timeoutFire id => fireTimeout s id
  | .procClose => onClose s
  | .procError m => onError s m
  | .terminate => terminate s

/-- run a sequence of events, accumulating the effect log. -/
def run (s : BridgeState) : List Event → BridgeState × List Effect
  | [] => (s, [])
  | e :: es => ((run (step s e).1 es).1, (step s e).2 ++ (run (step s e).1 es).2)

end PythonBridge

/-- state invariant of the bridge: pending ids are positive, never exceed the
issued counter, carry the fixed 60000 ms timeout, and are pairwise distinct. -/
def BridgeInv (s : BridgeState) : Prop :=
  (∀ q ∈ s.pending, 1 ≤ q.1 ∧ q.1 ≤ s.requestId ∧ q.2.timeoutMs = 60000) ∧
  (s.pending.map Prod.fst).Nodup

lemma mapHas_eq_false_iff {p : List (Nat × PendingEntry)} {i : Nat} :
    mapHas p i = false ↔ ∀ q ∈ p, q.1 ≠ i := by
  simp [mapHas, List.any_eq_false]

lemma mapHas_eq_true_iff {p : List (Nat × PendingEntry)} {i : Nat} :
    mapHas p i = true ↔ ∃ q ∈ p, q.1 = i := by
  simp [mapHas, List.any_eq_true]

lemma mapHas_mapDelete_self (p : List (Nat × PendingEntry)) (i : Nat) :
    mapHas (mapDelete p i) i = false := by
  simp [mapHas, mapDelete, List.any_filter]

lemma mapHas_mapDelete_ne {p : List (Nat × PendingEntry)} {i j : Nat} (h : j ≠ i) :
    mapHas (mapDelete p i) j = mapHas p j := by
  have hpt : ∀ q : Nat × PendingEntry, ((q.1 != i) && (q.1 == j)) = (q.1 == j) := by
    intro q
    by_cases hq : q.1 = j
    · simp [hq, h]
    · simp [hq]
  simp [mapHas, mapDelete, List.any_filter, hpt]

lemma mem_of_mem_mapDelete {p : List (Nat × PendingEntry)} {i : Nat}
    {q : Nat × PendingEntry} (h : q ∈ mapDelete p i) : q ∈ p :=
  List.mem_of_mem_filter h

lemma nodup_map_fst_mapDelete {p : List (Nat × PendingEntry)} {i : Nat}
    (h : (p.map Prod.fst).Nodup) : ((mapDelete p i).map Prod.fst).Nodup :=
  List.Nodup.sublist (List.Sublist.map Prod.fst (List.filter_sublist p)) h

lemma mapSet_of_not_has {p : List (Nat × PendingEntry)} {i : Nat} {v : PendingEntry}
    (h : mapHas p i = false) : mapSet p i v = p ++ [(i, v)] := by
  simp [mapSet, h]

lemma mapHas_append {p q : List (Nat × PendingEntry)} {i : Nat} :
    mapHas (p ++ q) i = (mapHas p i || mapHas q i) := by
  simp [mapHas, List.any_append]

lemma find?_eq_some_of_mem_nodup {p : List (Nat × PendingEntry)} {i : Nat}
    {e : PendingEntry} (hnd : (p.map Prod.fst).Nodup) (hm : (i, e) ∈ p) :
    p.find? (fun q => q.1 == i) = some (i, e) := by
  induction p with
  | nil => cases hm
  | cons a t ih =>
    rw [List.map_cons] at hnd
    rcases List.mem_cons.mp hm with h | h
    · rw [← h]
      simp
    · have ha : (a.1 == i) = false := by
        simp only [beq_eq_false_iff_ne, ne_eq]
        intro heq
        have hi : i ∈ t.map Prod.fst := List.mem_map.mpr ⟨(i, e), h, rfl⟩
        exact (List.nodup_cons.mp hnd).1 (heq ▸ hi)
      simp only [List.find?_cons, ha]
      exact ih (List.nodup_cons.mp hnd).2 h

/-- identifies the settlement effect of a given pending id. -/
def Effect.isSettledFor (i : Nat) : Effect → Bool
  | .settled j _ => j == i
  | _ => false

/-- the ids settled in an effect log. -/
def settledIds : List Effect → List Nat
  | [] => []
  | .settled j _ :: t => j :: settledIds t
  | .sent _ _ _ :: t => settledIds t
  | .callThrew _ :: t => settledIds t
  | .killed :: t => settledIds t

lemma settledIds_append (l m : List Effect) :
    settledIds (l ++ m) = settledIds l ++ settledIds m := by
  induction l with
  | nil => rfl
  | cons e t ih => cases e <;> simp [settledIds, ih]

lemma mem_settledIds_iff_any {l : List Effect} {i : Nat} :
    i ∈ settledIds l ↔ l.any (Effect.isSettledFor i) = true := by
  induction l with
  | nil => simp [settledIds]
  | cons e t ih =>
    cases e with
    | settled j o =>
      simp only [settledIds, List.any_cons, Effect.isSettledFor, List.mem_cons,
        Bool.or_eq_true, beq_iff_eq]
      exact or_congr eq_comm ih
    | sent m p id => simpa [settledIds, Effect.isSettledFor] using ih
    | callThrew m => simpa [settledIds, Effect.isSettledFor] using ih
    | killed => simpa [settledIds, Effect.isSettledFor] using ih

lemma settledIds_map_settled (p : List (Nat × PendingEntry))
    (f : Nat × PendingEntry → Outcome) :
    settledIds (p.map (fun q => Effect.settled q.1 (f q))) = p.map Prod.fst := by
  induction p with
  | nil => rfl
  | cons a t ih => simp [settledIds, ih]

/-- an id that is not pending and not beyond the issued counter: such an id
can never be settled again (fresh ids are always strictly larger). -/
def DeadId (s : BridgeState) (i : Nat) : Prop :=
  mapHas s.pending i = false ∧ i ≤ s.requestId


namespace PythonBridge

lemma call_of_proc {s : BridgeState} (hps : s.pythonProcess = true)
    (m : String) (p : JValue) :
    call s m p =
      ({ s with requestId := s.requestId + 1,
                pending := mapSet s.pending (s.requestId + 1) ⟨m, 60000⟩ },
       [.sent m p (s.requestId + 1)]) := by
  simp only [call]
  rw [if_neg]
  simp [hps]

lemma call_of_no_proc {s : BridgeState} (hps : s.pythonProcess = false)
    (m : String) (p : JValue) :
    call s m p = (s, [.callThrew "Python process not initialized"]) := by
  simp only [call]
  rw [if_pos]
  simp [hps]

lemma fresh_id_not_has {s : BridgeState} (h : BridgeInv s) :
    mapHas s.pending (s.requestId + 1) = false := by
  rw [mapHas_eq_false_iff]
  intro q hq
  have := (h.1 q hq).2.1
  omega

lemma inv_call {s : BridgeState} (m : String) (p : JValue) (h : BridgeInv s) :
    BridgeInv (call s m p).1 := by
  cases hps : s.pythonProcess with
  | false => rw [call_of_no_proc hps]; exact h
  | true =>
    rw [call_of_proc hps, mapSet_of_not_has (fresh_id_not_has h)]
    dsimp only
    obtain ⟨hb, hnd⟩ := h
    constructor
    · intro q hq
      rcases List.mem_append.mp hq with hq1 | hq1
      · obtain ⟨h1, h2, h3⟩ := hb q hq1
        exact ⟨h1, Nat.le_succ_of_le h2, h3⟩
      · rcases List.mem_singleton.mp hq1 with rfl
        exact ⟨Nat.succ_le_succ (Nat.zero_le _), Nat.le_refl _, rfl⟩
    · rw [List.map_append, List.nodup_append]
      refine ⟨hnd, List.nodup_singleton _, ?_⟩
      intro x hx hx2
      rcases List.mem_singleton.mp hx2 with rfl
      obtain ⟨q, hq, hq2⟩ := List.mem_map.mp hx
      have := (hb q hq).2.1
      omega

lemma inv_delete {s : BridgeState} (i : Nat) (h : BridgeInv s) :
    BridgeInv { s with pending := mapDelete s.pending i } := by
  obtain ⟨hb, hnd⟩ := h
  constructor
  · intro q hq
    exact hb q (mem_of_mem_mapDelete hq)
  · exact nodup_map_fst_mapDelete hnd

lemma inv_step (s : BridgeState) (e : Event) (h : BridgeInv s) :
    BridgeInv (step s e).1 := by
  cases e with
  | call m p => exact inv_call m p h
  | message id b =>
    simp only [step, handleMessage]
    by_cases hc : (id != 0 && mapHas s.pending id) = true
    · rw [if_pos hc]
      exact inv_delete id h
    · rw [if_neg hc]
      exact h
  | timeoutFire id =>
    simp only [step, fireTimeout]
    cases hf : s.pending.find? (fun q => q.1 == id) with
    | none => simp only [hf]; exact h
    | some q => simp only [hf]; exact inv_delete id h
  | procClose =>
    exact ⟨by simp [step, onClose], by simp [step, onClose]⟩
  | procError m =>
    exact ⟨by simp [step, onError], by simp [step, onError]⟩
  | terminate =>
    exact ⟨by simp [step, terminate], by simp [step, terminate]⟩

lemma dead_step (s : BridgeState) (e : Event) {i : Nat}
    (h : BridgeInv s) (hd : DeadId s i) :
    DeadId (step s e).1 i ∧ ((step s e).2.any (Effect.isSettledFor i)) = false := by
  obtain ⟨hd1, hd2⟩ := hd
  cases e with
  | call m p =>
    cases hps : s.pythonProcess with
    | false =>
      rw [step, call_of_no_proc hps]
      exact ⟨⟨hd1, hd2⟩, by simp [Effect.isSettledFor]⟩
    | true =>
      rw [step, call_of_proc hps, mapSet_of_not_has (fresh_id_not_has h)]
      dsimp only
      refine ⟨⟨?_, Nat.le_succ_of_le hd2⟩, by simp [Effect.isSettledFor]⟩
      rw [mapHas_append]
      have h2 : mapHas [(s.requestId + 1, (⟨m, 60000⟩ : PendingEntry))] i = false := by
        rw [mapHas_eq_false_iff]
        intro q hq
        rcases List.mem_singleton.mp hq with rfl
        show s.requestId + 1 ≠ i
        omega
      rw [hd1, h2]
      rfl
  | message id b =>
    simp only [step, handleMessage]
    by_cases hc : (id != 0 && mapHas s.pending id) = true
    · have hne : i ≠ id := by
        intro hEq
        rw [hEq] at hd1
        rw [hd1] at hc
        simp at hc
      rw [if_pos hc]
      refine ⟨⟨?_, hd2⟩, ?_⟩
      · rw [mapHas_mapDelete_ne hne]
        exact hd1
      · simp [Effect.isSettledFor, Ne.symm hne]
    · rw [if_neg hc]
      exact ⟨⟨hd1, hd2⟩, rfl⟩
  | timeoutFire id =>
    simp only [step, fireTimeout]
    cases hf : s.pending.find? (fun q => q.1 == id) with
    | none => simp only [hf]; exact ⟨⟨hd1, hd2⟩, rfl⟩
    | some q =>
      simp only [hf]
      have hqm : q ∈ s.pending := List.mem_of_find?_eq_some hf
      have hqi : q.1 = id := by simpa using List.find?_some hf
      have hne : i ≠ id := by
        intro hEq
        have hh : mapHas s.pending id = true := mapHas_eq_true_iff.mpr ⟨q, hqm, hqi⟩
        rw [hEq, hh] at hd1
        cases hd1
      refine ⟨⟨?_, hd2⟩, ?_⟩
      · rw [mapHas_mapDelete_ne hne]
        exact hd1
      · simp [Effect.isSettledFor, Ne.symm hne]
  | procClose =>
    have hall : ∀ x ∈ s.pending.map (fun q => Effect.settled q.1 Outcome.processClosed),
        ¬ Effect.isSettledFor i x = true := by
      intro x hx
      obtain ⟨q, hq, rfl⟩ := List.mem_map.mp hx
      have hqi : q.1 ≠ i := mapHas_eq_false_iff.mp hd1 q hq
      simp [Effect.isSettledFor, hqi]
    refine ⟨⟨by simp [step, onClose, mapHas], by simpa [step, onClose] using hd2⟩, ?_⟩
    simp only [step, onClose]
    exact List.any_eq_false.mpr hall
  | procError m =>
    have hall : ∀ x ∈ s.pending.map (fun q => Effect.settled q.1 (Outcome.processError m)),
        ¬ Effect.isSettledFor i x = true := by
      intro x hx
      obtain ⟨q, hq, rfl⟩ := List.mem_map.mp hx
      have hqi : q.1 ≠ i := mapHas_eq_false_iff.mp hd1 q hq
      simp [Effect.isSettledFor, hqi]
    refine ⟨⟨by simp [step, onError, mapHas], by simpa [step, onError] using hd2⟩, ?_⟩
    simp only [step, onError]
    exact List.any_eq_false.mpr hall
  | terminate =>
    refine ⟨⟨by simp [step, terminate, mapHas], by simpa [step, terminate] using hd2⟩, ?_⟩
    cases hps : s.pythonProcess <;> simp [step, terminate, hps, Effect.isSettledFor]

end PythonBridge

namespace PythonBridge

lemma settled_step (s : BridgeState) (e : Event) {i : Nat} (h : BridgeInv s)
    (hs : ((step s e).2.any (Effect.isSettledFor i)) = true) :
    DeadId (step s e).1 i := by
  cases e with
  | call m p =>
    exfalso
    cases hps : s.pythonProcess with
    | false =>
      rw [step, call_of_no_proc hps] at hs
      simp [Effect.isSettledFor] at hs
    | true =>
      rw [step, call_of_proc hps] at hs
      simp [Effect.isSettledFor] at hs
  | message id b =>
    simp only [step, handleMessage] at hs ⊢
    by_cases hc : (id != 0 && mapHas s.pending id) = true
    · rw [if_pos hc] at hs ⊢
      have hbe : (id == i) = true := by simpa [Effect.isSettledFor] using hs
      have hidi : id = i := by simpa using hbe
      subst hidi
      refine ⟨mapHas_mapDelete_self _ _, ?_⟩
      have hhas : mapHas s.pending id = true := ((Bool.and_eq_true _ _).mp hc).2
      obtain ⟨q, hqm, hqi⟩ := mapHas_eq_true_iff.mp hhas
      have hle := (h.1 q hqm).2.1
      exact hqi ▸ hle
    · rw [if_neg hc] at hs
      cases hs
  | timeoutFire id =>
    simp only [step, fireTimeout] at hs ⊢
    cases hf : s.pending.find? (fun q => q.1 == id) with
    | none =>
      simp only [hf] at hs
      cases hs
    | some q =>
      simp only [hf] at hs ⊢
      have hbe : (id == i) = true := by simpa [Effect.isSettledFor] using hs
      have hidi : id = i := by simpa using hbe
      subst hidi
      refine ⟨mapHas_mapDelete_self _ _, ?_⟩
      have hqm := List.mem_of_find?_eq_some hf
      have hqi : q.1 = id := by simpa using List.find?_some hf
      have hle := (h.1 q hqm).2.1
      exact hqi ▸ hle
  | procClose =>
    simp only [step, onClose] at hs ⊢
    refine ⟨by simp [mapHas], ?_⟩
    obtain ⟨x, hx, hxi⟩ := List.any_eq_true.mp hs
    obtain ⟨q, hqm, rfl⟩ := List.mem_map.mp hx
    have hqi : q.1 = i := by simpa [Effect.isSettledFor] using hxi
    have hle := (h.1 q hqm).2.1
    exact hqi ▸ hle
  | procError m =>
    simp only [step, onError] at hs ⊢
    refine ⟨by simp [mapHas], ?_⟩
    obtain ⟨x, hx, hxi⟩ := List.any_eq_true.mp hs
    obtain ⟨q, hqm, rfl⟩ := List.mem_map.mp hx
    have hqi : q.1 = i := by simpa [Effect.isSettledFor] using hxi
    have hle := (h.1 q hqm).2.1
    exact hqi ▸ hle
  | terminate =>
    exfalso
    cases hps : s.pythonProcess <;>
      · simp only [step, terminate, hps] at hs
        simp [Effect.isSettledFor] at hs

lemma settled_nodup_step (s : BridgeState) (e : Event) (h : BridgeInv s) :
    (settledIds (step s e).2).Nodup := by
  cases e with
  | call m p =>
    cases hps : s.pythonProcess with
    | false => rw [step, call_of_no_proc hps]; simp [settledIds]
    | true => rw [step, call_of_proc hps]; simp [settledIds]
  | message id b =>
    simp only [step, handleMessage]
    by_cases hc : (id != 0 && mapHas s.pending id) = true
    · rw [if_pos hc]; simp [settledIds]
    · rw [if_neg hc]; simp [settledIds]
  | timeoutFire id =>
    simp only [step, fireTimeout]
    cases hf : s.pending.find? (fun q => q.1 == id) with
    | none => simp only [hf]; simp [settledIds]
    | some q => simp only [hf]; simp [settledIds]
  | procClose =>
    simp only [step, onClose]
    rw [settledIds_map_settled]
    exact h.2
  | procError m =>
    simp only [step, onError]
    rw [settledIds_map_settled]
    exact h.2
  | terminate =>
    cases hps : s.pythonProcess <;> simp [step, terminate, hps, settledIds]

/-- main log invariant: along any event trace from an invariant-satisfying
state, the ids of all settlement effects are pairwise distinct, and an id that
is dead (not pending, not in the future of the counter) is never settled. -/
lemma run_log (s : BridgeState) (tr : List Event) (h : BridgeInv s) :
    (settledIds (run s tr).2).Nodup ∧
    ∀ i, DeadId s i → ((run s tr).2.any (Effect.isSettledFor i)) = false := by
  induction tr generalizing s with
  | nil => exact ⟨List.nodup_nil, fun i _ => rfl⟩
  | cons e es ih =>
    obtain ⟨ih1, ih2⟩ := ih (step s e).1 (inv_step s e h)
    constructor
    · show (settledIds ((step s e).2 ++ (run (step s e).1 es).2)).Nodup
      rw [settledIds_append, List.nodup_append]
      refine ⟨settled_nodup_step s e h, ih1, ?_⟩
      intro x hx hx2
      have hx1 : ((step s e).2.any (Effect.isSettledFor x)) = true :=
        mem_settledIds_iff_any.mp hx
      have hdead := settled_step s e h hx1
      have hnone := ih2 x hdead
      rw [mem_settledIds_iff_any, hnone] at hx2
      cases hx2
    · intro i hdi
      show (((step s e).2 ++ (run (step s e).1 es).2).any (Effect.isSettledFor i)) = false
      rw [List.any_append]
      obtain ⟨hd1, hs1⟩ := dead_step s e h hdi
      rw [hs1, ih2 i hd1]
      rfl

end PythonBridge

namespace PythonBridge

/-- pending entries created by a block of consecutive calls issued while the
counter stood at `rid`. -/
def callEntries (rid : Nat) : List String → List (Nat × PendingEntry)
  | [] => []
  | m :: ms => (rid + 1, ⟨m, 60000⟩) :: callEntries (rid + 1) ms

lemma mapHas_callEntries (ms : List String) (rid i : Nat)
    (h1 : rid + 1 ≤ i) (h2 : i ≤ rid + ms.length) :
    mapHas (callEntries rid ms) i = true := by
  induction ms generalizing rid with
  | nil =>
    exfalso
    simp only [List.length_nil] at h2
    omega
  | cons m ms ih =>
    simp only [callEntries, mapHas, List.any_cons]
    by_cases hi : i = rid + 1
    · subst hi
      simp
    · have h2a : i ≤ (rid + 1) + ms.length := by
        simp only [List.length_cons] at h2
        omega
      have hrec := ih (rid + 1) (by omega) h2a
      simp only [mapHas] at hrec
      rw [hrec]
      simp

lemma run_calls (ms : List String) (s : BridgeState)
    (hp : s.pythonProcess = true)
    (hb : ∀ q ∈ s.pending, q.1 ≤ s.requestId) :
    (run s (ms.map (fun m => Event.call m JValue.null))).1
      = { pythonProcess := true, requestId := s.requestId + ms.length,
          pending := s.pending ++ callEntries s.requestId ms,
          isInitialized := s.isInitialized } := by
  induction ms generalizing s with
  | nil =>
    simp only [List.map_nil, run, callEntries, List.length_nil, Nat.add_zero,
      List.append_nil]
    rw [← hp]
  | cons m ms ih =>
    have hfresh : mapHas s.pending (s.requestId + 1) = false := by
      rw [mapHas_eq_false_iff]
      intro q hq
      have := hb q hq
      omega
    simp only [List.map_cons, run, step, call_of_proc hp, mapSet_of_not_has hfresh]
    have hb2 : ∀ q ∈ s.pending ++ [(s.requestId + 1, (⟨m, 60000⟩ : PendingEntry))],
        q.1 ≤ s.requestId + 1 := by
      intro q hq
      rcases List.mem_append.mp hq with hq1 | hq1
      · have := hb q hq1
        omega
      · rcases List.mem_singleton.mp hq1 with rfl
        exact Nat.le_refl _
    rw [ih { s with requestId := s.requestId + 1,
                    pending := s.pending ++ [(s.requestId + 1, ⟨m, 60000⟩)] } hp hb2]
    have harith : s.requestId + 1 + ms.length = s.requestId + (m :: ms).length := by
      simp only [List.length_cons]
      omega
    simp only [callEntries, harith, List.append_assoc, List.singleton_append]

lemma run_messages (s : BridgeState) (order : List Nat) (bodies : Nat → InMsgBody)
    (hnd : order.Nodup) (h0 : ∀ i ∈ order, i ≠ 0)
    (hmem : ∀ i ∈ order, mapHas s.pending i = true) :
    (run s (order.map (fun i => Event.message i (bodies i)))).2
      = order.map (fun i => Effect.settled i (outcomeOf (bodies i))) := by
  induction order generalizing s with
  | nil => rfl
  | cons i rest ih =>
    have hhi : mapHas s.pending i = true := hmem i (List.mem_cons_self i rest)
    have h0i : i ≠ 0 := h0 i (List.mem_cons_self i rest)
    have hcond : (i != 0 && mapHas s.pending i) = true := by
      simp [hhi, h0i]
    have hirest : i ∉ rest := (List.nodup_cons.mp hnd).1
    have hrec := ih { s with pending := mapDelete s.pending i }
      (List.nodup_cons.mp hnd).2
      (fun j hj => h0 j (List.mem_cons_of_mem i hj))
      (by
        intro j hj
        have hji : j ≠ i := by
          intro hEq
          exact hirest (hEq ▸ hj)
        show mapHas (mapDelete s.pending i) j = true
        rw [mapHas_mapDelete_ne hji]
        exact hmem j (List.mem_cons_of_mem i hj))
    simp only [List.map_cons, run, step, handleMessage]
    rw [if_pos hcond]
    simp only [List.singleton_append]
    rw [← hrec]

end PythonBridge

open PythonBridge in
/-- C1: each inbound response is delivered to exactly the caller whose request
carries the same id — resolved with the message's result or rejected with its
error — independent of arrival order.  Formalization: after any block of
`call()` invocations (ids 1..N), processing response messages for any
duplicate-free selection of those ids, in any order and with any bodies,
settles exactly the entry of each response's own id with that response's own
outcome. -/
theorem c1_responses_routed_by_id (ms : List String) (order : List Nat)
    (bodies : Nat → InMsgBody) (hnd : order.Nodup)
    (hrange : ∀ i ∈ order, 1 ≤ i ∧ i ≤ ms.length) :
    (run (run spawnedState (ms.map (fun m => Event.call m JValue.null))).1
         (order.map (fun i => Event.message i (bodies i)))).2
      = order.map (fun i => Effect.settled i (outcomeOf (bodies i))) := by
  rw [run_calls ms spawnedState rfl (by intro q hq; cases hq)]
  apply run_messages
  · exact hnd
  · intro i hi
    have := (hrange i hi).1
    omega
  · intro i hi
    obtain ⟨hi1, hi2⟩ := hrange i hi
    exact mapHas_callEntries ms 0 i (by omega) (by omega)

open PythonBridge in
/-- witness for C1: three calls, responses returned in the order 3, 1, 2. -/
theorem c1_responses_routed_by_id_witness :
    ([3, 1, 2] : List Nat).Nodup ∧
    (∀ i ∈ ([3, 1, 2] : List Nat),
      1 ≤ i ∧ i ≤ (["get_devices", "run_sync", "get_shifts"] : List String).length) ∧
    (run (run spawnedState ((["get_devices", "run_sync", "get_shifts"] : List String).map
          (fun m => Event.call m JValue.null))).1
         (([3, 1, 2] : List Nat).map
          (fun i => Event.message i (InMsgBody.result (JValue.num (Int.ofNat i)))))).2
      = ([3, 1, 2] : List Nat).map (fun i =>
          Effect.settled i (outcomeOf (InMsgBody.result (JValue.num (Int.ofNat i))))) :=
  ⟨by decide, by decide,
    c1_responses_routed_by_id _ _ _ (by decide) (by decide)⟩

open PythonBridge in
/-- C2: a pending call whose 60-second timer fires is rejected with the
method-naming RequestTimeout error, its entry (whose timeout duration was
fixed at 60000 ms when `call()` created it) is removed from the pending
table, and no later event — in particular no late response carrying that
id — ever settles that id again. -/
theorem c2_timeout_rejects_and_late_response_ignored
    (s : BridgeState) (i : Nat) (ent : PendingEntry)
    (hInv : BridgeInv s) (hmem : (i, ent) ∈ s.pending) :
    ent.timeoutMs = 60000 ∧
    Outcome.errorText (.requestTimeout ent.method)
      = some ("Request timeout: " ++ ent.method) ∧
    (fireTimeout s i).2 = [Effect.settled i (.requestTimeout ent.method)] ∧
    mapHas (fireTimeout s i).1.pending i = false ∧
    ∀ tr, (((run (fireTimeout s i).1 tr).2).any (Effect.isSettledFor i)) = false := by
  have hfind := find?_eq_some_of_mem_nodup hInv.2 hmem
  have hms := hInv.1 (i, ent) hmem
  refine ⟨hms.2.2, rfl, ?_, ?_, ?_⟩
  · simp only [fireTimeout, hfind]
  · simp only [fireTimeout, hfind]
    exact mapHas_mapDelete_self _ _
  · intro tr
    have hInv2 : BridgeInv (fireTimeout s i).1 := by
      have h := inv_step s (.timeoutFire i) hInv
      simpa [step] using h
    have hdead : DeadId (fireTimeout s i).1 i := by
      simp only [fireTimeout, hfind]
      exact ⟨mapHas_mapDelete_self _ _, hms.2.1⟩
    exact (run_log _ tr hInv2).2 i hdead

/-- concrete bridge state for the C2 witness: one pending `run_sync` call. -/
def c2State : BridgeState :=
  { pythonProcess := true, requestId := 1,
    pending := [(1, ⟨"run_sync", 60000⟩)], isInitialized := true }

open PythonBridge in
/-- witness for C2: the single pending call times out with the
method-naming error and a late response for id 1 settles nothing. -/
theorem c2_timeout_witness :
    BridgeInv c2State ∧ ((1 : Nat), (⟨"run_sync", 60000⟩ : PendingEntry)) ∈ c2State.pending ∧
    (fireTimeout c2State 1).2
      = [Effect.settled 1 (.requestTimeout "run_sync")] ∧
    mapHas (fireTimeout c2State 1).1.pending 1 = false ∧
    (((run (fireTimeout c2State 1).1
        [Event.message 1 (InMsgBody.result JValue.null)]).2).any
        (Effect.isSettledFor 1)) = false := by
  have h := c2_timeout_rejects_and_late_response_ignored c2State 1 ⟨"run_sync", 60000⟩
    (by refine ⟨?_, ?_⟩ <;> decide) (by decide)
  exact ⟨by refine ⟨?_, ?_⟩ <;> decide, by decide, h.2.2.1, h.2.2.2.1, h.2.2.2.2 _⟩

open PythonBridge in
/-- counterexample to C3 as stated: after the worker's close notification the
bridge still accepts `call()` — the process reference is never cleared by the
close handler, so a further call is dispatched (a `sent` effect with id 2)
instead of being refused. -/
theorem c3_counterexample :
    (run spawnedState
        [Event.call "get_devices" JValue.null, Event.procClose,
         Event.call "get_shifts" JValue.null]).2
      = [Effect.sent "get_devices" JValue.null 1,
         Effect.settled 1 Outcome.processClosed,
         Effect.sent "get_shifts" JValue.null 2] := by
  rfl

open PythonBridge in
/-- C3 (amended): when the process emits its close notification, every one of
the N pending entries is rejected with the termination error and the
initialized flag is dropped; however the close handler leaves the process
reference attached, so a further `call()` is still accepted and dispatched to
the dead process rather than refused. -/
theorem c3_close_rejects_all_pending (s : BridgeState) (m : String) (p : JValue)
    (hp : s.pythonProcess = true) :
    (onClose s).2 = s.pending.map (fun q => Effect.settled q.1 Outcome.processClosed) ∧
    (onClose s).1.isInitialized = false ∧
    (onClose s).1.pending = [] ∧
    (onClose s).1.pythonProcess = true ∧
    (call (onClose s).1 m p).2 = [Effect.sent m p (s.requestId + 1)] := by
  refine ⟨rfl, rfl, rfl, hp, ?_⟩
  rw [@call_of_proc (onClose s).1 hp m p]
  rfl

open PythonBridge in
/-- witness for C3 (amended): a crash with one pending entry, then another
call that the bridge still accepts. -/
theorem c3_close_witness :
    c2State.pythonProcess = true ∧
    (onClose c2State).2 = [Effect.settled 1 Outcome.processClosed] ∧
    (onClose c2State).1.isInitialized = false ∧
    (onClose c2State).1.pending = [] ∧
    (onClose c2State).1.pythonProcess = true ∧
    (call (onClose c2State).1 "get_devices" JValue.null).2
      = [Effect.sent "get_devices" JValue.null 2] := by
  have h := c3_close_rejects_all_pending c2State "get_devices" JValue.null rfl
  exact ⟨rfl, h.1, h.2.1, h.2.2.1, h.2.2.2.1, h.2.2.2.2⟩

open PythonBridge in
/-- counterexample to C4 as stated: `terminate()` removes a pending entry
without settling it.  One call is issued, `terminate()` clears its entry, and
the whole effect log — including the entry's own later timer firing — contains
no settlement for it: the caller never learns an outcome. -/
theorem c4_counterexample :
    (run spawnedState
        [Event.call "run_sync" JValue.null, Event.terminate, Event.timeoutFire 1]).2
      = [Effect.sent "run_sync" JValue.null 1, Effect.killed] ∧
    (run spawnedState [Event.call "run_sync" JValue.null, Event.terminate]).1.pending
      = [] := by
  exact ⟨rfl, rfl⟩

open PythonBridge in
/-- C4 (amended): every pending entry is settled at most once — a response,
the entry's timeout, and process exit each remove the entry atomically with
its settlement, so no id is ever settled twice; but not exactly once, because
`terminate()` clears the pending table without settling its entries. -/
theorem c4_settled_at_most_once (s : BridgeState) (tr : List Event)
    (hInv : BridgeInv s) :
    (settledIds (run s tr).2).Nodup :=
  (run_log s tr hInv).1

open PythonBridge in
/-- witness for C4 (amended): a trace with a response, a duplicate late
response, a timeout and a crash settles pairwise distinct ids. -/
theorem c4_settled_at_most_once_witness :
    BridgeInv spawnedState ∧
    (settledIds (run spawnedState
        [Event.call "get_devices" JValue.null, Event.call "run_sync" JValue.null,
         Event.call "get_shifts" JValue.null,
         Event.message 1 (InMsgBody.result JValue.null),
         Event.message 1 (InMsgBody.result JValue.null),
         Event.timeoutFire 2, Event.message 2 (InMsgBody.result JValue.null),
         Event.procClose]).2).Nodup := by
  refine ⟨⟨?_, ?_⟩, ?_⟩
  · decide
  · decide
  · exact c4_settled_at_most_once spawnedState _ (by refine ⟨?_, ?_⟩ <;> decide)

namespace PythonBridge

/-- how the `initialize` handshake call — always id 1, issued on the freshly
spawned bridge — ends. -/
inductive HandshakeEnd where
  | resolved (v : JValue)
  | remoteError (msg : Option String)
  | callTimeout
  | initTimeout

/-- the outcome of one `initialize()` execution after a successful spawn. -/
structure InitResult where
  state : BridgeState
  effects : List Effect
  result : Except String Unit

/-- detects a process-kill effect. -/
def Effect.isKilled : Effect → Bool
  | .killed => true
  | _ => false

/-- the freshly spawned bridge right after `this.call('initialize', {})`. -/
def handshakeIssued : BridgeState × List Effect :=
  call spawnedState "initialize" (JValue.obj [])

/-- `initialize()` after a successful spawn, mirroring the promise wiring of
the source: the bridge issues `this.call('initialize', {})`; if that call
resolves, the then-continuation sets `isInitialized` and `initialize()`
resolves; if it rejects (worker error reply, or the call's own 60 s timer),
the catch-continuation clears the 30 s init timer and rejects `initialize()`
with the same error; if the separate 30 s init timer fires first,
`initialize()` rejects while the handshake entry stays pending.  No failure
branch kills the process.  The spawn-failure branches (interpreter or script
not found) reject before any of this state exists and are not modeled. -/
def initializeRun : HandshakeEnd → InitResult
  | .resolved v =>
      { state := { (handleMessage handshakeIssued.1 1 (.result v)).1 with
                    isInitialized := true },
        effects := handshakeIssued.2 ++ (handleMessage handshakeIssued.1 1 (.result v)).2,
        result := .ok () }
  | .remoteError m =>
      { state := (handleMessage handshakeIssued.1 1 (.error m)).1,
        effects := handshakeIssued.2 ++ (handleMessage handshakeIssued.1 1 (.error m)).2,
        result := .error (errMsg m) }
  | .callTimeout =>
      { state := (fireTimeout handshakeIssued.1 1).1,
        effects := handshakeIssued.2 ++ (fireTimeout handshakeIssued.1 1).2,
        result := .error "Request timeout: initialize" }
  | .initTimeout =>
      { state := handshakeIssued.1,
        effects := handshakeIssued.2,
        result := .error "Python initialization timeout - Python may not be responding" }

end PythonBridge

open PythonBridge in
/-- counterexample to C5 as stated: a `call()` made while the handshake is
still unsettled IS dispatched to the worker — the message for `get_devices`
(id 2) is written while the handshake entry (id 1) is still pending — because
`call()` checks only that a process is attached, not that the handshake
resolved. -/
theorem c5_counterexample :
    (run spawnedState
        [Event.call "initialize" (JValue.obj []),
         Event.call "get_devices" (JValue.obj [])]).2
      = [Effect.sent "initialize" (JValue.obj []) 1,
         Effect.sent "get_devices" (JValue.obj []) 2] ∧
    mapHas (run spawnedState
        [Event.call "initialize" (JValue.obj []),
         Event.call "get_devices" (JValue.obj [])]).1.pending 1 = true :=
  ⟨rfl, rfl⟩

open PythonBridge in
/-- C5 (amended): the handle becomes Ready (`isInitialized`) only once the
handshake resolves — no bridge event sets the flag, and every handshake
failure leaves it unset — but the bridge does not withhold other calls while
the handshake is unsettled: any `call()` on an attached process is dispatched
immediately. -/
theorem c5_ready_only_after_handshake_but_calls_not_gated
    (s : BridgeState) (e : Event) (m : String) (p v : JValue) (mo : Option String)
    (hp : s.pythonProcess = true) (hi : s.isInitialized = false) :
    (call s m p).2 = [Effect.sent m p (s.requestId + 1)] ∧
    (step s e).1.isInitialized = false ∧
    (initializeRun (.resolved v)).state.isInitialized = true ∧
    (initializeRun (.remoteError mo)).state.isInitialized = false ∧
    (initializeRun .callTimeout).state.isInitialized = false ∧
    (initializeRun .initTimeout).state.isInitialized = false := by
  refine ⟨by rw [call_of_proc hp], ?_, rfl, rfl, rfl, rfl⟩
  cases e with
  | call m2 p2 =>
    cases hps : s.pythonProcess with
    | false => rw [step, call_of_no_proc hps]; exact hi
    | true => rw [step, call_of_proc hps]; exact hi
  | message id b =>
    simp only [step, handleMessage]
    by_cases hc : (id != 0 && mapHas s.pending id) = true
    · rw [if_pos hc]; exact hi
    · rw [if_neg hc]; exact hi
  | timeoutFire id =>
    simp only [step, fireTimeout]
    cases hf : s.pending.find? (fun q => q.1 == id) with
    | none => simp only [hf]; exact hi
    | some q => simp only [hf]; exact hi
  | procClose => rfl
  | procError m2 => exact hi
  | terminate => rfl

open PythonBridge in
/-- witness for C5 (amended) at the freshly spawned bridge. -/
theorem c5_ready_only_after_handshake_witness :
    spawnedState.pythonProcess = true ∧ spawnedState.isInitialized = false ∧
    (call spawnedState "get_devices" JValue.null).2
      = [Effect.sent "get_devices" JValue.null 1] ∧
    (step spawnedState (Event.message 1 (InMsgBody.result JValue.null))).1.isInitialized
      = false ∧
    (initializeRun (.resolved JValue.null)).state.isInitialized = true ∧
    (initializeRun (.remoteError (some "boom"))).state.isInitialized = false ∧
    (initializeRun .callTimeout).state.isInitialized = false ∧
    (initializeRun .initTimeout).state.isInitialized = false := by
  have h := c5_ready_only_after_handshake_but_calls_not_gated spawnedState
    (Event.message 1 (InMsgBody.result JValue.null)) "get_devices" JValue.null
    JValue.null (some "boom") rfl rfl
  exact ⟨rfl, rfl, h.1, h.2.1, h.2.2.1, h.2.2.2.1, h.2.2.2.2.1, h.2.2.2.2.2⟩

open PythonBridge in
/-- counterexample to C6 as stated: when the handshake call times out,
`initialize()` rejects, but the spawned worker process is NOT terminated —
the process reference stays attached and no kill effect is produced. -/
theorem c6_counterexample :
    (initializeRun HandshakeEnd.callTimeout).result
      = .error "Request timeout: initialize" ∧
    (initializeRun HandshakeEnd.callTimeout).state.pythonProcess = true ∧
    ((initializeRun HandshakeEnd.callTimeout).effects.any Effect.isKilled) = false :=
  ⟨rfl, rfl, rfl⟩

open PythonBridge in
/-- C6 (amended): on every handshake failure — worker error reply, the
call's 60 s timeout, or the 30 s init timeout — `initialize()` rejects (the
start fails as a whole), but the still-alive worker process is not
terminated: no kill is issued and the process reference remains attached. -/
theorem c6_handshake_failure_rejects_but_does_not_terminate (mo : Option String) :
    ((initializeRun (.remoteError mo)).result = .error (errMsg mo) ∧
      (initializeRun (.remoteError mo)).state.pythonProcess = true ∧
      ((initializeRun (.remoteError mo)).effects.any Effect.isKilled) = false) ∧
    ((initializeRun .callTimeout).result = .error "Request timeout: initialize" ∧
      (initializeRun .callTimeout).state.pythonProcess = true ∧
      ((initializeRun .callTimeout).effects.any Effect.isKilled) = false) ∧
    ((initializeRun .initTimeout).result
        = .error "Python initialization timeout - Python may not be responding" ∧
      (initializeRun .initTimeout).state.pythonProcess = true ∧
      ((initializeRun .initTimeout).effects.any Effect.isKilled) = false) :=
  ⟨⟨rfl, rfl, rfl⟩, ⟨rfl, rfl, rfl⟩, ⟨rfl, rfl, rfl⟩⟩

open PythonBridge in
/-- witness for C6 (amended) at a concrete worker error message. -/
theorem c6_handshake_failure_witness :
    (initializeRun (.remoteError (some "sdk missing"))).result
      = .error "sdk missing" ∧
    (initializeRun (.remoteError (some "sdk missing"))).state.pythonProcess = true ∧
    ((initializeRun (.remoteError (some "sdk missing"))).effects.any Effect.isKilled)
      = false :=
  (c6_handshake_failure_rejects_but_does_not_terminate (some "sdk missing")).1

/-- the IPC router operations of `setupIpcHandlers` in main.js that forward a
command to the worker (device CRUD and connectivity test, sync queries,
ERPNext test, shift CRUD, exports).  The config handlers and `sync:trigger`
are modeled separately. -/
inductive IpcRequest where
  | devicesList
  | devicesAdd (device : JValue)
  | devicesUpdate (device : JValue)
  | devicesDelete (deviceId : JValue)
  | devicesTest (device : JValue)
  | syncStatus
  | syncHistory (params : JValue)
  | syncLogs (params : JValue)
  | erpnextTest (config : JValue)
  | shiftsList
  | shiftsAdd (shift : JValue)
  | shiftsUpdate (shift : JValue)
  | shiftsDelete (shiftId : JValue)
  | exportExcel (params : JValue)
  | exportPdf (params : JValue)

/-- body of each router handler: exactly one `pythonBridge.call(method,
params)` with the parameters forwarded as received.  The source contains no
validation code on any of these handlers. -/
def routeIpc : IpcRequest → String × JValue
  | .devicesList => ("get_devices", .obj [])
  | .devicesAdd d => ("add_device", d)
  | .devicesUpdate d => ("update_device", d)
  | .devicesDelete i => ("delete_device", .obj [("id", i)])
  | .devicesTest d => ("test_device_connection", d)
  | .syncStatus => ("get_sync_status", .obj [])
  | .syncHistory p => ("get_sync_history", p)
  | .syncLogs p => ("get_attendance_logs", p)
  | .erpnextTest c => ("test_erpnext_connection", c)
  | .shiftsList => ("get_shifts", .obj [])
  | .shiftsAdd sh => ("add_shift", sh)
  | .shiftsUpdate sh => ("update_shift", sh)
  | .shiftsDelete i => ("delete_shift", .obj [("id", i)])
  | .exportExcel p => ("export_to_excel", p)
  | .exportPdf p => ("export_to_pdf", p)

/-- a device record with an empty name and a syntactically invalid network
address. -/
def malformedDevice : JValue :=
  .obj [("name", .str ""), ("ip", .str "999.999.999.999"), ("port", .num 4370)]

/-- counterexample to C7 as stated: a device record with an empty name and an
invalid address is not rejected with a ValidationError — the add-device
handler forwards it verbatim to the worker as an `add_device` bridge call. -/
theorem c7_counterexample :
    routeIpc (.devicesAdd malformedDevice) = ("add_device", malformedDevice) := rfl

/-- C7 (amended): no router operation validates its input; every operation is
a 1:1 translation into exactly one bridge call whose parameters are the
caller's parameters unchanged, so malformed input reaches the worker instead
of failing fast. -/
theorem c7_no_validation_params_forwarded (v : JValue) :
    routeIpc (.devicesAdd v) = ("add_device", v) ∧
    routeIpc (.devicesUpdate v) = ("update_device", v) ∧
    routeIpc (.devicesDelete v) = ("delete_device", JValue.obj [("id", v)]) ∧
    routeIpc (.devicesTest v) = ("test_device_connection", v) ∧
    routeIpc (.syncHistory v) = ("get_sync_history", v) ∧
    routeIpc (.syncLogs v) = ("get_attendance_logs", v) ∧
    routeIpc (.erpnextTest v) = ("test_erpnext_connection", v) ∧
    routeIpc (.shiftsAdd v) = ("add_shift", v) ∧
    routeIpc (.shiftsUpdate v) = ("update_shift", v) ∧
    routeIpc (.shiftsDelete v) = ("delete_shift", JValue.obj [("id", v)]) ∧
    routeIpc (.exportExcel v) = ("export_to_excel", v) ∧
    routeIpc (.exportPdf v) = ("export_to_pdf", v) ∧
    routeIpc .devicesList = ("get_devices", JValue.obj []) ∧
    routeIpc .syncStatus = ("get_sync_status", JValue.obj []) ∧
    routeIpc .shiftsList = ("get_shifts", JValue.obj []) :=
  ⟨rfl, rfl, rfl, rfl, rfl, rfl, rfl, rfl, rfl, rfl, rfl, rfl, rfl, rfl, rfl⟩

/-- scheduler state: `syncInterval` is the module-level handle variable in
main.js; `active` models the set of live interval timers in the runtime and
`nextTimer` the supply of fresh timer ids. -/
structure SchedState where
  nextTimer : Nat
  active : List Nat
  syncInterval : Option Nat
deriving DecidableEq

/-- the scheduler before any command: `let syncInterval = null`. -/
def SchedState.init : SchedState :=
  { nextTimer := 0, active := [], syncInterval := none }

/-- `startAutoSync()`: `if (syncInterval) clearInterval(syncInterval)` and
then `syncInterval = setInterval(...)` — cancel-then-restart, never a live
mutation of a running timer. -/
def startAutoSync (s : SchedState) : SchedState :=
  { nextTimer := s.nextTimer + 1,
    active := s.nextTimer ::
      (match s.syncInterval with
       | some t => s.active.erase t
       | none => s.active),
    syncInterval := some s.nextTimer }

/-- `toggleSync(paused)`: pausing clears the timer when one is held;
unpausing restarts through `startAutoSync()`. -/
def toggleSync (paused : Bool) (s : SchedState) : SchedState :=
  if paused then
    match s.syncInterval with
    | some t => { s with active := s.active.erase t, syncInterval := none }
    | none => s
  else startAutoSync s

/-- scheduler commands: enable and reconfigure both run `startAutoSync()`
(which re-reads the interval from the store), pause and resume run
`toggleSync`. -/
inductive SchedCmd where
  | enable
  | pause
  | resume
  | reconfigure

def schedStep (s : SchedState) : SchedCmd → SchedState
  | .enable => startAutoSync s
  | .pause => toggleSync true s
  | .resume => toggleSync false s
  | .reconfigure => startAutoSync s

def schedRun (s : SchedState) : List SchedCmd → SchedState
  | [] => s
  | c :: cs => schedRun (schedStep s c) cs

/-- scheduler invariant: the live timers are exactly the held handle, and the
held handle predates the fresh supply. -/
def SchedInv (s : SchedState) : Prop :=
  s.active = s.syncInterval.toList ∧ ∀ t, s.syncInterval = some t → t < s.nextTimer

lemma startAutoSync_none {s : SchedState} (hsi : s.syncInterval = none) :
    startAutoSync s
      = { nextTimer := s.nextTimer + 1, active := s.nextTimer :: s.active,
          syncInterval := some s.nextTimer } := by
  simp [startAutoSync, hsi]

lemma startAutoSync_some {s : SchedState} {t0 : Nat} (hsi : s.syncInterval = some t0) :
    startAutoSync s
      = { nextTimer := s.nextTimer + 1, active := s.nextTimer :: s.active.erase t0,
          syncInterval := some s.nextTimer } := by
  simp [startAutoSync, hsi]

lemma toggleSync_pause_none {s : SchedState} (hsi : s.syncInterval = none) :
    toggleSync true s = s := by
  simp [toggleSync, hsi]

lemma toggleSync_pause_some {s : SchedState} {t0 : Nat} (hsi : s.syncInterval = some t0) :
    toggleSync true s = { s with active := s.active.erase t0, syncInterval := none } := by
  simp [toggleSync, hsi]

lemma schedInv_start (s : SchedState) (h : SchedInv s) :
    SchedInv (startAutoSync s) := by
  obtain ⟨h1, h2⟩ := h
  cases hsi : s.syncInterval with
  | none =>
    rw [hsi] at h1
    rw [startAutoSync_none hsi]
    refine ⟨?_, ?_⟩
    · show s.nextTimer :: s.active = [s.nextTimer]
      rw [h1]
      simp
    · intro t ht
      have h3 : s.nextTimer = t := Option.some.inj ht
      subst h3
      exact Nat.lt_succ_self _
  | some t0 =>
    rw [hsi] at h1
    rw [startAutoSync_some hsi]
    refine ⟨?_, ?_⟩
    · show s.nextTimer :: s.active.erase t0 = [s.nextTimer]
      rw [h1]
      simp
    · intro t ht
      have h3 : s.nextTimer = t := Option.some.inj ht
      subst h3
      exact Nat.lt_succ_self _

lemma schedInv_step (s : SchedState) (c : SchedCmd) (h : SchedInv s) :
    SchedInv (schedStep s c) := by
  cases c with
  | enable => exact schedInv_start s h
  | reconfigure => exact schedInv_start s h
  | resume => exact schedInv_start s h
  | pause =>
    obtain ⟨h1, h2⟩ := h
    show SchedInv (toggleSync true s)
    cases hsi : s.syncInterval with
    | none =>
      rw [toggleSync_pause_none hsi]
      exact ⟨h1, h2⟩
    | some t0 =>
      rw [hsi] at h1
      rw [toggleSync_pause_some hsi]
      refine ⟨?_, ?_⟩
      · show s.active.erase t0 = ([] : List Nat)
        rw [h1]
        exact List.erase_cons_head t0 []
      · intro t ht
        have h3 : (none : Option Nat) = some t := ht
        exact Option.noConfusion h3

lemma schedRun_inv (cmds : List SchedCmd) (s : SchedState) (h : SchedInv s) :
    SchedInv (schedRun s cmds) := by
  induction cmds generalizing s with
  | nil => exact h
  | cons c cs ih => exact ih (schedStep s c) (schedInv_step s c h)

/-- C8: at most one repeating timer is ever live, whatever the command
sequence — every transition that installs a timer first cancels the held
one — and the particular sequence enable, pause, resume ends with exactly one
live timer. -/
theorem c8_at_most_one_timer :
    (∀ cmds : List SchedCmd, (schedRun SchedState.init cmds).active.length ≤ 1) ∧
    (schedRun SchedState.init
        [SchedCmd.enable, SchedCmd.pause, SchedCmd.resume]).active.length = 1 := by
  constructor
  · intro cmds
    have hinv := schedRun_inv cmds SchedState.init ⟨rfl, by intro t ht; cases ht⟩
    rw [hinv.1]
    cases (schedRun SchedState.init cmds).syncInterval <;> simp
  · rfl

/-- UI events sent to the renderer over `mainWindow.webContents.send`. -/
inductive UiEvent where
  | syncStarted
  | syncCompleted (result : JValue)
  | syncError (msg : String)

def UiEvent.isSyncError : UiEvent → Bool
  | .syncError _ => true
  | _ => false

/-- `triggerManualSync()` from main.js — also the tray Sync Now action and
the `sync:trigger` IPC handler, which simply awaits it.  When a bridge object
exists it sends `sync:started`, issues the `run_sync` bridge call, and sends
`sync:completed` with the result, or — catching any failure — `sync:error`
with the error message; when no bridge exists the body is skipped entirely.
First component: the renderer events in order; second: whether a bridge call
was issued.  The `run_sync` outcome is supplied by the environment; the
`showNotification` calls are not modeled (no claim concerns them). -/
def triggerManualSync (bridgePresent : Bool)
    (runSyncResult : Except String JValue) : List UiEvent × Bool :=
  if bridgePresent then
    match runSyncResult with
    | .ok v => ([.syncStarted, .syncCompleted v], true)
    | .error m => ([.syncStarted, .syncError m], true)
  else ([], false)

/-- one `setInterval` tick of `startAutoSync`: the callback just invokes
`triggerManualSync()`; the scheduler state is untouched. -/
def tick (s : SchedState) (res : Except String JValue) : SchedState × List UiEvent :=
  (s, (triggerManualSync true res).1)

/-- consecutive scheduled ticks with the given `run_sync` outcomes. -/
def runTicks (s : SchedState) : List (Except String JValue) → SchedState × List UiEvent
  | [] => (s, [])
  | r :: rs =>
    ((runTicks (tick s r).1 rs).1, (tick s r).2 ++ (runTicks (tick s r).1 rs).2)

lemma runTicks_state (rs : List (Except String JValue)) (s : SchedState) :
    (runTicks s rs).1 = s := by
  induction rs generalizing s with
  | nil => rfl
  | cons r rs ih => exact ih s

lemma runTicks_err_events (ms : List String) (s : SchedState) :
    (runTicks s (ms.map Except.error)).2
      = ms.flatMap (fun m => [UiEvent.syncStarted, UiEvent.syncError m]) := by
  induction ms generalizing s with
  | nil => rfl
  | cons m ms ih =>
    simp only [List.map_cons, runTicks, List.flatMap_cons]
    rw [ih]
    rfl

/-- C9: every failing scheduled `run_sync` is converted into a `sync:error`
renderer event carrying the error message — the callback catches the
rejection — and the scheduler state, hence the repeating timer, is untouched:
after N consecutive failing ticks there are exactly N `sync:error` events
(one per tick, each preceded by its `sync:started`) and the timer handle is
still held. -/
theorem c9_failed_ticks_emit_events_timer_survives
    (sched : SchedState) (ms : List String)
    (h : sched.syncInterval.isSome = true) :
    (runTicks sched (ms.map Except.error)).1 = sched ∧
    (runTicks sched (ms.map Except.error)).2
      = ms.flatMap (fun m => [UiEvent.syncStarted, UiEvent.syncError m]) ∧
    ((runTicks sched (ms.map Except.error)).2.countP UiEvent.isSyncError)
      = ms.length ∧
    (runTicks sched (ms.map Except.error)).1.syncInterval.isSome = true := by
  refine ⟨runTicks_state _ _, runTicks_err_events _ _, ?_, ?_⟩
  · rw [runTicks_err_events]
    induction ms with
    | nil => rfl
    | cons m ms ih =>
      simp only [List.flatMap_cons, List.countP_append, List.length_cons, ih]
      have h1 : List.countP UiEvent.isSyncError
          [UiEvent.syncStarted, UiEvent.syncError m] = 1 := rfl
      omega
  · rw [runTicks_state]
    exact h

/-- witness for C9: three failing ticks on a running scheduler. -/
theorem c9_failed_ticks_witness :
    ({ nextTimer := 1, active := [0], syncInterval := some 0 } :
        SchedState).syncInterval.isSome = true ∧
    (runTicks { nextTimer := 1, active := [0], syncInterval := some 0 }
        (["e1", "e2", "e3"].map Except.error)).1
      = { nextTimer := 1, active := [0], syncInterval := some 0 } ∧
    (runTicks { nextTimer := 1, active := [0], syncInterval := some 0 }
        (["e1", "e2", "e3"].map Except.error)).2
      = [UiEvent.syncStarted, UiEvent.syncError "e1",
         UiEvent.syncStarted, UiEvent.syncError "e2",
         UiEvent.syncStarted, UiEvent.syncError "e3"] ∧
    ((runTicks { nextTimer := 1, active := [0], syncInterval := some 0 }
        (["e1", "e2", "e3"].map Except.error)).2.countP UiEvent.isSyncError) = 3 ∧
    (runTicks { nextTimer := 1, active := [0], syncInterval := some 0 }
        (["e1", "e2", "e3"].map Except.error)).1.syncInterval.isSome = true := by
  have h := c9_failed_ticks_emit_events_timer_survives
    { nextTimer := 1, active := [0], syncInterval := some 0 } ["e1", "e2", "e3"] rfl
  exact ⟨rfl, h.1, h.2.1, h.2.2.1, h.2.2.2⟩

/-- C10: invoking the manual sync trigger while no bridge object exists does
nothing: no renderer event is emitted, no bridge call is issued, and the
function returns normally (the `sync:trigger` handler resolves with this
value; nothing is thrown). -/
theorem c10_trigger_without_bridge_is_noop (res : Except String JValue) :
    triggerManualSync false res = ([], false) := rfl

/-- witness for C7 (amended): the malformed device record is forwarded
unchanged to the worker by both add and update. -/
theorem c7_no_validation_witness :
    routeIpc (.devicesAdd malformedDevice) = ("add_device", malformedDevice) ∧
    routeIpc (.devicesUpdate malformedDevice) = ("update_device", malformedDevice) :=
  ⟨(c7_no_validation_params_forwarded malformedDevice).1,
   (c7_no_validation_params_forwarded malformedDevice).2.1⟩

/-- witness for C8 at concrete command sequences. -/
theorem c8_at_most_one_timer_witness :
    (schedRun SchedState.init
        [SchedCmd.enable, SchedCmd.reconfigure, SchedCmd.pause]).active.length ≤ 1 ∧
    (schedRun SchedState.init
        [SchedCmd.enable, SchedCmd.pause, SchedCmd.resume]).active.length = 1 :=
  ⟨c8_at_most_one_timer.1 _, c8_at_most_one_timer.2⟩

/-- witness for C10 at a concrete would-be outcome. -/
theorem c10_trigger_without_bridge_witness :
    triggerManualSync false (Except.error "boom") = ([], false) :=
  c10_trigger_without_bridge_is_noop (Except.error "boom")
